import Mathlib

/-!
Verification of the Super Mario Bros gym environment core
(`gym_super_mario_bros/smb_env.py`): a shallow embedding of the memory
decoder, reward synthesizer, termination logic, tile-grid builder and the
start-screen frame-skip procedure, followed by theorems settling the
specification claims.

The NES RAM is modelled as a total function from addresses to byte values
(`Mem`).  Python integer arithmetic is modelled with `Nat`/`Int`; Python's
floor division and nonnegative `%` on a positive divisor coincide with
Lean's `Int` `/` (Euclidean) and `%`, which is used throughout.
-/

namespace SMB

/-- RAM model: a byte-addressable memory image. -/
def Mem : Type := Nat → Nat

/-- Fueled helper for `decDigits`: most-significant-first decimal digits of
`n`, mirroring Python `str(n)` for a natural number.  The fuel `n + 1` in
`decDigits` always suffices since the argument strictly decreases. -/
def decDigitsAux : Nat → Nat → List Nat
  | 0, _ => []
  | fuel + 1, n => if n < 10 then [n] else decDigitsAux fuel (n / 10) ++ [n % 10]

/-- Most-significant-first decimal digits of `n` (the digit string `str(n)`;
`decDigits 0 = [0]`). -/
def decDigits (n : Nat) : List Nat :=
  decDigitsAux (n + 1) n

/-- Source `_read_mem_range` applied to an already-extracted list of cells:
`int(..join(map(str, cells)))` — concatenate the decimal representation of
every cell in address order and parse the result as a base-10 integer. -/
def read_mem_range (cells : List Nat) : Nat :=
  ((cells.map decDigits).flatten).foldl (fun a d => a * 10 + d) 0

/-- The slice `ram[address : address + length]` as a list of cells. -/
def ramRange (ram : Mem) (address length : Nat) : List Nat :=
  (List.range length).map (fun i => ram (address + i))

/-- Source `_time`: the clock, decoded from the 3 digit cells at `0x7f8`. -/
def time (ram : Mem) : Nat :=
  read_mem_range (ramRange ram 0x7f8 3)

/-- Source `_life`: the life counter byte. -/
def life (ram : Mem) : Nat := ram 0x75a

/-- Source `_x_position`: `ram[0x6d] * 0x100 + ram[0x86]`. -/
def x_position (ram : Mem) : Nat := ram 0x6d * 0x100 + ram 0x86

/-- Source `_left_x_position`: `(ram[0x86] - ram[0x71c]) % 256` with Python/numpy
wrap-around, i.e. the nonnegative residue of the difference. -/
def left_x_position (ram : Mem) : Int :=
  ((ram 0x86 : Int) - (ram 0x71c : Int)) % 256

/-- Source `_y_pixel`: the raw vertical pixel register. -/
def y_pixel (ram : Mem) : Nat := ram 0x3b8

/-- Source `_y_viewport`: 1 = visible, 0 = above, more than 1 = below (falling). -/
def y_viewport (ram : Mem) : Nat := ram 0xb5

/-- Source `_y_position`: distance from the bottom of the screen, with the
overflow correction applied when Mario is above the viewport. -/
def y_position (ram : Mem) : Int :=
  if y_viewport ram < 1 then 255 + (255 - (y_pixel ram : Int))
  else 255 - (y_pixel ram : Int)

/-- Source `_player_state`: the player-state byte at `0x000e`. -/
def player_state (ram : Mem) : Nat := ram 0x000e

/-- Source `_is_dying`: dying animation or fallen below the viewport. -/
def is_dying (ram : Mem) : Bool :=
  decide (player_state ram = 0x0b ∨ 1 < y_viewport ram)

/-- Source `_is_dead`: the player-state byte equals 6. -/
def is_dead (ram : Mem) : Bool :=
  decide (player_state ram = 0x06)

/-- Source `_is_game_over`: the life counter holds the sentinel `0xff`. -/
def is_game_over (ram : Mem) : Bool :=
  decide (life ram = 0xff)

/-- Source `_is_world_over`: the gameplay-mode register equals 2. -/
def is_world_over (ram : Mem) : Bool :=
  decide (ram 0x770 = 2)

/-- The five enemy-type slot addresses scanned by `_is_stage_over`. -/
def ENEMY_TYPE_ADDRESSES : List Nat := [0x16, 0x17, 0x18, 0x19, 0x1a]

/-- Source `_is_stage_over`: some enemy slot holds the Bowser (`0x2d`) or Flagpole
(`0x31`) sentinel, and the float-state register `0x1d` equals 3. -/
def is_stage_over (ram : Mem) : Bool :=
  (ENEMY_TYPE_ADDRESSES.any (fun a => decide (ram a = 0x2d ∨ ram a = 0x31)))
    && decide (ram 0x1d = 3)

/-- Source `_flag_get`: world over or stage over. -/
def flag_get (ram : Mem) : Bool :=
  is_world_over ram || is_stage_over ram

/-- Source `is_single_stage_env`: both a target world and a target area are set. -/
def is_single_stage_env (tw ta : Option Nat) : Bool :=
  tw.isSome && ta.isSome

/-- Source `_x_reward`: the movement term together with the updated
previous-position cache (the source mutates `_x_position_last`). -/
def x_reward (ram : Mem) (x_position_last : Int) : Int × Int :=
  let d := (x_position ram : Int) - x_position_last
  (if d = 0 then -10 else 0, (x_position ram : Int))

/-- Source `_time_penalty`: the raw time delta is computed and then immediately
overwritten with 0 before the comparisons, exactly as in the source. -/
def time_penalty (ram : Mem) (time_last : Int) : Int :=
  let _d := (time ram : Int) - time_last
  let d : Int := 0
  if time ram = 0 then -5000
  else if d > 0 then 0
  else 5

/-- Source `_death_penalty`: `-5000` while dying or dead, else 0. -/
def death_penalty (ram : Mem) : Int :=
  if is_dying ram || is_dead ram then -5000 else 0

/-- Source `_get_reward`: sum of the three terms plus the flag bonus; also returns
the updated previous-position cache written by `_x_reward`. -/
def get_reward (ram : Mem) (x_position_last time_last : Int) : Int × Int :=
  let xr := x_reward ram x_position_last
  let r := xr.1 + death_penalty ram + time_penalty ram time_last
  let r := if flag_get ram then r + 1000000 else r
  (r, xr.2)

/-- Source `_get_done`: stage mode ends on dying/dead/flag, full-game mode ends on
game over. -/
def get_done (tw ta : Option Nat) (ram : Mem) : Bool :=
  if is_single_stage_env tw ta then is_dying ram || is_dead ram || flag_get ram
  else is_game_over ram

/-- An on-screen enemy extracted by `_get_enemies`. -/
structure Enemy where
  x : Nat
  y : Nat
deriving DecidableEq

/-- Source `_get_enemies`: slots 0..3; a slot is active when the byte at
`0xF + slot` is non-zero; its position is `page * 0x100 + x` and `y`. -/
def get_enemies (ram : Mem) : List Enemy :=
  (List.range 4).filterMap (fun slot =>
    if ram (0xf + slot) ≠ 0 then
      some ⟨ram (0x6e + slot) * 0x100 + ram (0x87 + slot), ram (0xcf + slot)⟩
    else none)

/-- Source `local_x` inside `_get_tile_type`. -/
def local_x (ram : Mem) (box_x : Int) : Int :=
  (x_position ram : Int) - left_x_position ram + box_x + 112

/-- Source `local_y` inside `_get_tile_type`. -/
def local_y (box_y : Int) : Int := box_y + 96

/-- Source `local_page = floor(local_x / 256) % 2` (both divisors positive, so
Python floor-division/mod coincide with Lean `Int` `/` and `%`). -/
def local_page (ram : Mem) (box_x : Int) : Int :=
  (local_x ram box_x / 256) % 2

/-- Source `sub_x = floor((local_x % 256) / 16)`. -/
def sub_x (ram : Mem) (box_x : Int) : Int :=
  (local_x ram box_x % 256) / 16

/-- Source `sub_y = floor((local_y - 32) / 16)`. -/
def sub_y (box_y : Int) : Int :=
  (local_y box_y - 32) / 16

/-- Source `curr_tile_addr = 0x500 + local_page*13*16 + sub_y*16 + sub_x`. -/
def curr_tile_addr (ram : Mem) (box_x box_y : Int) : Int :=
  0x500 + local_page ram box_x * 13 * 16 + sub_y box_y * 16 + sub_x ram box_x

/-- Source `_get_tile_type`: 0 when the row index fails the defensive bound check
(no tile-table read happens), otherwise 1 iff the tile byte is non-zero. -/
def get_tile_type (ram : Mem) (box_x box_y : Int) : Nat :=
  if 13 ≤ sub_y box_y ∨ sub_y box_y < 0 then 0
  else if ram (curr_tile_addr ram box_x box_y).toNat ≠ 0 then 1 else 0

/-- The value of one grid cell in `_get_tiles`, in source evaluation order:
empty, then solid, then the enemy scan, then the player override. -/
def cellValue (ram : Mem) (box_x box_y : Int) : Nat :=
  let enemies := get_enemies ram
  let left_x := left_x_position ram
  let tile0 : Nat := 0
  let tile1 : Nat :=
    if get_tile_type ram box_x box_y = 1 ∧ y_position ram + box_y < 0x1b0 then 1
    else tile0
  let tile2 : Nat := enemies.foldl (fun tv e =>
    if |(e.x : Int) - ((x_position ram : Int) + box_x - left_x + 108)| ≤ 8 ∧
        |(e.y : Int) - (90 + box_y)| ≤ 8 then 2
    else tv) tile1
  if y_viewport ram = 1 ∧
      |(x_position ram : Int) - ((x_position ram : Int) + box_x - left_x + 108)| ≤ 8 ∧
      |(y_pixel ram : Int) - (80 + box_y)| ≤ 8 then 3
  else tile2

/-- Source `_get_tiles`: `box_y` runs over `range(-64, 128, 16)` (12 rows) and
`box_x` over `range(-112, 128, 16)` (15 columns). -/
def get_tiles (ram : Mem) : List (List Nat) :=
  (List.range 12).map (fun (i : Nat) =>
    (List.range 15).map (fun (j : Nat) =>
      cellValue ram (-112 + 16 * (j : Int)) (-64 + 16 * (i : Int))))

/-- The emulation core consumed by the skip procedures: one frame advance
driven by a button mask, plus raw RAM reads and writes. -/
structure Emu (σ : Type) where
  advance : σ → Nat → σ
  ramRead : σ → Nat → Nat
  ramWrite : σ → Nat → Nat → σ

/-- The decoded `time` field of an emulator state. -/
def timeOfE {σ : Type} (E : Emu σ) (s : σ) : Nat :=
  time (E.ramRead s)

/-- Source `_write_stage`: inject the target world/stage/area bytes. -/
def write_stage {σ : Type} (E : Emu σ) (tw ts ta : Nat) (s : σ) : σ :=
  E.ramWrite (E.ramWrite (E.ramWrite s 0x75f (tw - 1)) 0x75c (ts - 1)) 0x760 (ta - 1)

/-- Source `_runout_prelevel_timer`: force the pre-level timer byte to 0. -/
def runout_prelevel_timer {σ : Type} (E : Emu σ) (s : σ) : σ :=
  E.ramWrite s 0x7a0 0

/-- First loop of `_skip_start_screen` (fueled): while `time == 0`, press
start, inject the target stage when configured, release start, and force
the pre-level timer to 0. -/
def skipLoop1 {σ : Type} (E : Emu σ) (single : Bool) (tw ts ta : Nat) :
    Nat → σ → Option σ
  | 0, _ => none
  | fuel + 1, s =>
    if timeOfE E s = 0 then
      let s1 := E.advance s 8
      let s2 := if single then write_stage E tw ts ta s1 else s1
      let s3 := E.advance s2 0
      skipLoop1 E single tw ts ta fuel (runout_prelevel_timer E s3)
    else some s

/-- Second loop of `_skip_start_screen` (fueled): while the current time is
at least the recorded `time_last`, record the current time and advance a
press/release pair; return as soon as the time drops below the record. -/
def skipLoop2 {σ : Type} (E : Emu σ) : Nat → Nat → σ → Option σ
  | 0, _, _ => none
  | fuel + 1, last, s =>
    if last ≤ timeOfE E s then
      skipLoop2 E fuel (timeOfE E s) (E.advance (E.advance s 8) 0)
    else some s

/-- Source `_skip_start_screen` (fueled): the initial press/release pair, the
wait-for-nonzero-time loop, then the idle loop seeded with the current
time as `time_last`. -/
def skip_start_screen {σ : Type} (E : Emu σ) (single : Bool) (tw ts ta : Nat)
    (fuel : Nat) (s : σ) : Option σ :=
  let s0 := E.advance (E.advance s 8) 0
  match skipLoop1 E single tw ts ta fuel s0 with
  | none => none
  | some m1 => skipLoop2 E fuel (timeOfE E m1) m1

/-! ## Concrete memory images used as witnesses and counterexamples -/

/-- A memory image with the viewport visible (`1`) and Mario at pixel row 200. -/
def ramV1 : Mem := fun a => if a = 0xb5 then 1 else if a = 0x3b8 then 200 else 0

/-- A memory image with the viewport register 0 (above the screen) and Mario
at pixel row 200. -/
def ramV0 : Mem := fun a => if a = 0x3b8 then 200 else 0

/-- A memory image whose only loaded enemy slot holds the vine type byte
(`0x2f`) while the float-state register is 3. -/
def vineRam : Mem := fun a => if a = 0x16 then 0x2f else if a = 0x1d then 3 else 0

/-- A memory image whose first enemy slot holds the flagpole sentinel
(`0x31`) while the float-state register is 3. -/
def flagRam : Mem := fun a => if a = 0x16 then 0x31 else if a = 0x1d then 3 else 0

/-- A memory image with the player-state byte set to the dead value 6. -/
def deadRam : Mem := fun a => if a = 0xe then 0x06 else 0

/-- A memory image with the viewport visible and Mario at pixel row 80. -/
def ramW : Mem := fun a => if a = 0xb5 then 1 else if a = 0x3b8 then 80 else 0

/-- The all-zero memory image. -/
def ramA : Mem := fun _ => 0

/-- A memory image agreeing with `ramA` everywhere except at the address
`0x700`, which lies outside the tile table and the position registers. -/
def ramB : Mem := fun a => if a = 0x700 then 5 else 0

/-! ## Claims about the reward synthesizer -/

/-- Claim C1: for every step, `_get_reward` returns
`xTerm + deathTerm + timeTerm` plus a single `1000000` bonus exactly when
`flag_get` holds, where `xTerm` is `-10` iff the x-position delta is zero
(else 0) and `deathTerm` is `-5000` iff dying or dead (else 0); the
previous-position cache is updated to the current position. -/
theorem claim1_get_reward (ram : Mem) (x_position_last time_last : Int) :
    (get_reward ram x_position_last time_last).1 =
      (if (x_position ram : Int) - x_position_last = 0 then -10 else 0) +
        (if is_dying ram = true ∨ is_dead ram = true then -5000 else 0) +
        time_penalty ram time_last +
        (if flag_get ram = true then 1000000 else 0) ∧
    (get_reward ram x_position_last time_last).2 = (x_position ram : Int) := by
  refine ⟨?_, rfl⟩
  show (if flag_get ram then _ + death_penalty ram + _ + 1000000
        else _ + death_penalty ram + _) = _
  rw [death_penalty]
  by_cases hf : flag_get ram <;>
    by_cases hd : (is_dying ram || is_dead ram) = true <;>
      simp only [Bool.or_eq_true] at hd <;>
        simp [hf, hd, x_reward]

/-- Claim C2: `_time_penalty` is `-5000` when the decoded time is 0 and `5`
otherwise, for every value of the previous-time cache: the raw delta is
overwritten with 0, so the delta-positive branch is unreachable. -/
theorem claim2_time_penalty (ram : Mem) (time_last : Int) :
    time_penalty ram time_last = if time ram = 0 then -5000 else 5 := by
  by_cases h : time ram = 0 <;> simp [time_penalty, h]

/-! ## Claims about the memory decoder -/

/-- Claim C5: `_y_position` is `255 + (255 - y_pixel)` when the viewport
register is below 1 and `255 - y_pixel` otherwise. -/
theorem claim5_y_position (ram : Mem) :
    (y_viewport ram < 1 → y_position ram = 255 + (255 - (y_pixel ram : Int))) ∧
    (1 ≤ y_viewport ram → y_position ram = 255 - (y_pixel ram : Int)) := by
  constructor
  · intro h
    rw [y_position, if_pos h]
  · intro h
    rw [y_position, if_neg (by omega)]

/-- Witness for claim C5: viewport 1 with pixel 200 gives 55, viewport 0
with pixel 200 gives 310. -/
theorem claim5_witness : y_position ramV1 = 55 ∧ y_position ramV0 = 310 :=
  ⟨((claim5_y_position ramV1).2 (by decide)).trans (by decide),
   ((claim5_y_position ramV0).1 (by decide)).trans (by decide)⟩

/-- Claim C6: `_is_stage_over` holds iff one of the 5 enemy-type slots holds
the Bowser (`0x2d`) or flagpole (`0x31`) sentinel and the float-state
register equals 3; a vine-only slot image with float state 3 yields false. -/
theorem claim6_is_stage_over :
    (∀ ram : Mem, is_stage_over ram = true ↔
      ((∃ a ∈ ENEMY_TYPE_ADDRESSES, ram a = 0x2d ∨ ram a = 0x31) ∧ ram 0x1d = 3)) ∧
    is_stage_over vineRam = false := by
  refine ⟨fun ram => ?_, by decide⟩
  simp [is_stage_over, List.any_eq_true]

/-- Witness for claim C6: a flagpole sentinel in the first slot together
with float state 3 does report the stage as over. -/
theorem claim6_witness : is_stage_over flagRam = true :=
  (claim6_is_stage_over.1 flagRam).mpr ⟨⟨0x16, by decide, Or.inr (by decide)⟩, by decide⟩

/-- Claim C7: `_get_done` is `is_dying ∨ is_dead ∨ flag_get` in single-stage
mode and `is_game_over` (life = `0xff`) otherwise; player state 6 forces
`is_dead` and, in single-stage mode, `done`. -/
theorem claim7_get_done :
    (∀ (tw ta : Option Nat) (ram : Mem),
      get_done tw ta ram = true ↔
        (if is_single_stage_env tw ta then
          is_dying ram = true ∨ is_dead ram = true ∨ flag_get ram = true
        else life ram = 0xff)) ∧
    (∀ ram : Mem, player_state ram = 0x06 →
      is_dead ram = true ∧ get_done (some 1) (some 1) ram = true) := by
  constructor
  · intro tw ta ram
    by_cases h : is_single_stage_env tw ta = true <;>
      simp [get_done, is_game_over, h, or_assoc]
  · intro ram h
    have hd : is_dead ram = true := by simp [is_dead, h]
    exact ⟨hd, by simp [get_done, is_single_stage_env, hd]⟩

/-- Witness for claim C7: a memory image with player-state byte 6 is dead
and done in single-stage mode. -/
theorem claim7_witness : is_dead deadRam = true ∧ get_done (some 1) (some 1) deadRam = true :=
  claim7_get_done.2 deadRam (by decide)

/-- A single decimal digit is its own digit string. -/
lemma decDigits_eq_single (n : Nat) (h : n < 10) : decDigits n = [n] := by
  simp [decDigits, decDigitsAux, h]

/-- On digit cells the per-cell digit strings concatenate back to the cells. -/
lemma flatten_map_decDigits (cells : List Nat) (h : ∀ c ∈ cells, c < 10) :
    (cells.map decDigits).flatten = cells := by
  induction cells with
  | nil => rfl
  | cons c cs ih =>
    have hc : c < 10 := h c (List.mem_cons_self c cs)
    simp only [List.map_cons, List.flatten_cons, decDigits_eq_single c hc,
      List.singleton_append, List.cons.injEq, true_and]
    exact ih (fun x hx => h x (List.mem_cons_of_mem c hx))

/-- Claim C3: on cells each holding one decimal digit, `_read_mem_range`
returns the base-10 value of the digit sequence in address order. -/
theorem claim3_read_mem_range (cells : List Nat) (h : ∀ c ∈ cells, c ≤ 9) :
    read_mem_range cells = cells.foldl (fun a d => a * 10 + d) 0 := by
  rw [read_mem_range, flatten_map_decDigits cells (fun c hc => by have := h c hc; omega)]

/-- Witness for claim C3: score cells `[0,0,0,7,5,0]` decode to 750 and
time cells `[0,4,5]` decode to 45. -/
theorem claim3_witness :
    read_mem_range [0, 0, 0, 7, 5, 0] = 750 ∧ read_mem_range [0, 4, 5] = 45 :=
  ⟨(claim3_read_mem_range [0, 0, 0, 7, 5, 0] (by decide)).trans (by decide),
   (claim3_read_mem_range [0, 4, 5] (by decide)).trans (by decide)⟩

/-- Modelled from the spec for comparison (claim C4): a digit-sequence
decoder that fails (`none`, the `DecodeError` case) on any cell outside
0..9 instead of silently producing a value. -/
def read_mem_range_spec (cells : List Nat) : Option Nat :=
  if cells.all (fun c => decide (c ≤ 9)) then
    some (cells.foldl (fun a d => a * 10 + d) 0)
  else none

/-- Counterexample to claim C4: on a cell holding 23 (outside 0..9) the
spec-described decoder must fail, but the source decoder silently returns
the value 23. -/
theorem claim4_counterexample :
    read_mem_range_spec [23] = none ∧ read_mem_range [23] = 23 := by
  refine ⟨by decide, ?_⟩
  rfl

/-- The digit string of `n` parses back to `n` on top of any accumulator. -/
lemma foldl_decDigitsAux (fuel : Nat) :
    ∀ n acc : Nat, n < fuel →
      (decDigitsAux fuel n).foldl (fun a d => a * 10 + d) acc =
        acc * 10 ^ (decDigitsAux fuel n).length + n := by
  induction fuel with
  | zero => intro n acc h; omega
  | succ f ih =>
    intro n acc h
    by_cases h10 : n < 10
    · simp [decDigitsAux, h10]
    · have hpos : 0 < n := by omega
      have hdiv : n / 10 < f := by
        have := Nat.div_lt_self hpos (by omega : 1 < 10)
        omega
      simp only [decDigitsAux, if_neg h10, List.foldl_append, List.foldl_cons,
        List.foldl_nil, List.length_append, List.length_cons, List.length_nil,
        ih (n / 10) acc hdiv]
      rw [pow_succ, ← mul_assoc]
      have hnm := Nat.div_add_mod n 10
      generalize acc * 10 ^ (decDigitsAux f (n / 10)).length = m
      omega

/-- Claim C4 amended: the source decoder never fails; a cell holding any
value contributes its full decimal representation to the concatenation, so
a single cell decodes to its own value — a cell holding 23 yields 23
exactly as the two cells `[2, 3]` would. -/
theorem claim4_amended (v : Nat) : read_mem_range [v] = v := by
  have := foldl_decDigitsAux (v + 1) v 0 (by omega)
  simp only [read_mem_range, List.map_cons, List.map_nil, List.flatten_cons,
    List.flatten_nil, List.append_nil, decDigits]
  omega

/-! ## Claims about the tile grid builder -/

/-- The enemy scan of a cell either keeps the incoming value or marks 2. -/
lemma foldl_enemy_mem (l : List Enemy) (g : Enemy → Prop) [DecidablePred g] (v : Nat) :
    l.foldl (fun tv e => if g e then 2 else tv) v = v ∨
    l.foldl (fun tv e => if g e then 2 else tv) v = 2 := by
  induction l generalizing v with
  | nil => exact Or.inl rfl
  | cons e l ih =>
    simp only [List.foldl_cons]
    by_cases h : g e
    · rw [if_pos h]
      rcases ih 2 with h2 | h2 <;> exact Or.inr h2
    · rw [if_neg h]
      exact ih v

/-- Every cell of the grid carries one of the four classifications. -/
lemma cellValue_mem_range (ram : Mem) (box_x box_y : Int) :
    cellValue ram box_x box_y = 0 ∨ cellValue ram box_x box_y = 1 ∨
    cellValue ram box_x box_y = 2 ∨ cellValue ram box_x box_y = 3 := by
  rw [cellValue]
  split
  · exact Or.inr (Or.inr (Or.inr rfl))
  · rcases foldl_enemy_mem (get_enemies ram)
      (fun e => |(e.x : Int) - ((x_position ram : Int) + box_x - left_x_position ram + 108)| ≤ 8 ∧
        |(e.y : Int) - (90 + box_y)| ≤ 8)
      (if get_tile_type ram box_x box_y = 1 ∧ y_position ram + box_y < 0x1b0 then 1 else 0) with
      h | h <;> rw [h]
    · split
      · exact Or.inr (Or.inl rfl)
      · exact Or.inl rfl
    · exact Or.inr (Or.inr (Or.inl rfl))

/-- Claim C8: the grid is 12 rows by 15 columns with every cell in
`{0,1,2,3}`, computed purely from the current memory image; the player
override (value 3) is evaluated after the enemy scan, fires exactly under
its own box test whenever the viewport register is 1 (even when an enemy
also matches, overwriting it), and can never fire otherwise. -/
theorem claim8_get_tiles (ram : Mem) :
    (get_tiles ram).length = 12 ∧
    (∀ row ∈ get_tiles ram, row.length = 15) ∧
    (∀ row ∈ get_tiles ram, ∀ v ∈ row, v = 0 ∨ v = 1 ∨ v = 2 ∨ v = 3) ∧
    (∀ box_x box_y : Int, y_viewport ram = 1 →
      |(x_position ram : Int) - ((x_position ram : Int) + box_x - left_x_position ram + 108)| ≤ 8 →
      |(y_pixel ram : Int) - (80 + box_y)| ≤ 8 →
      cellValue ram box_x box_y = 3) ∧
    (∀ box_x box_y : Int, y_viewport ram ≠ 1 → cellValue ram box_x box_y ≠ 3) := by
  refine ⟨by rw [get_tiles, List.length_map, List.length_range], ?_, ?_, ?_, ?_⟩
  · intro row hrow
    simp only [get_tiles, List.mem_map] at hrow
    obtain ⟨i, _, rfl⟩ := hrow
    rw [List.length_map, List.length_range]
  · intro row hrow v hv
    simp only [get_tiles, List.mem_map] at hrow
    obtain ⟨i, _, rfl⟩ := hrow
    simp only [List.mem_map] at hv
    obtain ⟨j, _, rfl⟩ := hv
    exact cellValue_mem_range ram _ _
  · intro box_x box_y h1 h2 h3
    rw [cellValue]
    exact if_pos ⟨h1, h2, h3⟩
  · intro box_x box_y h1
    rw [cellValue]
    rw [if_neg (fun hc => h1 hc.1)]
    rcases foldl_enemy_mem (get_enemies ram)
      (fun e => |(e.x : Int) - ((x_position ram : Int) + box_x - left_x_position ram + 108)| ≤ 8 ∧
        |(e.y : Int) - (90 + box_y)| ≤ 8)
      (if get_tile_type ram box_x box_y = 1 ∧ y_position ram + box_y < 0x1b0 then 1 else 0) with
      h | h <;> rw [h]
    · split <;> omega
    · omega

/-- Witness for claim C8: with the viewport visible and Mario at pixel row
80, the sampled cell at offsets `(-112, 0)` is classified as the player. -/
theorem claim8_witness : cellValue ramW (-112) 0 = 3 :=
  (claim8_get_tiles ramW).2.2.2.1 (-112) 0 (by decide) (by decide) (by decide)

/-- The horizontal page bit is 0 or 1. -/
lemma local_page_bounds (ram : Mem) (box_x : Int) :
    0 ≤ local_page ram box_x ∧ local_page ram box_x < 2 :=
  ⟨Int.emod_nonneg _ (by decide), Int.emod_lt_of_pos _ (by decide)⟩

/-- The column index inside a page is between 0 and 15. -/
lemma sub_x_bounds (ram : Mem) (box_x : Int) :
    0 ≤ sub_x ram box_x ∧ sub_x ram box_x < 16 := by
  have h0 : 0 ≤ local_x ram box_x % 256 := Int.emod_nonneg _ (by decide)
  have h1 : local_x ram box_x % 256 < 256 := Int.emod_lt_of_pos _ (by decide)
  constructor
  · exact Int.ediv_nonneg h0 (by decide)
  · rw [sub_x, Int.ediv_lt_iff_lt_mul (by decide)]
    omega

/-- Claim C10: `_get_tile_type` is total with values in `{0, 1}`; whenever
the defensive row-bound check passes the computed tile address lies in
`[0x500, 0x500 + 2*13*16)`; when the check fails the result is 0 with no
tile-table read; and the result depends on the memory only through the
position registers (`0x86`, `0x71c`, `0x6d`) and the tile table
`0x500..0x69f`, so every tile-table read falls inside that window. -/
theorem claim10_get_tile_type (ram ram' : Mem) (box_x box_y : Int)
    (hpos : ram 0x86 = ram' 0x86 ∧ ram 0x71c = ram' 0x71c ∧ ram 0x6d = ram' 0x6d)
    (hagree : ∀ a : Nat, 0x500 ≤ a → a ≤ 0x69f → ram a = ram' a) :
    (get_tile_type ram box_x box_y = 0 ∨ get_tile_type ram box_x box_y = 1) ∧
    (0 ≤ sub_y box_y → sub_y box_y < 13 →
      (0x500 : Int) ≤ curr_tile_addr ram box_x box_y ∧
        curr_tile_addr ram box_x box_y < 0x500 + 2 * 13 * 16) ∧
    ((13 ≤ sub_y box_y ∨ sub_y box_y < 0) → get_tile_type ram box_x box_y = 0) ∧
    get_tile_type ram box_x box_y = get_tile_type ram' box_x box_y := by
  have hx : x_position ram = x_position ram' := by
    rw [x_position, x_position, hpos.1, hpos.2.2]
  have hl : left_x_position ram = left_x_position ram' := by
    rw [left_x_position, left_x_position, hpos.1, hpos.2.1]
  have hlx : local_x ram box_x = local_x ram' box_x := by
    rw [local_x, local_x, hx, hl]
  have haddr : curr_tile_addr ram box_x box_y = curr_tile_addr ram' box_x box_y := by
    rw [curr_tile_addr, curr_tile_addr, local_page, local_page, sub_x, sub_x, hlx]
  have hrange : 0 ≤ sub_y box_y → sub_y box_y < 13 →
      (0x500 : Int) ≤ curr_tile_addr ram box_x box_y ∧
        curr_tile_addr ram box_x box_y < 0x500 + 2 * 13 * 16 := by
    intro hy0 hy1
    have hp := local_page_bounds ram box_x
    have hsx := sub_x_bounds ram box_x
    rw [curr_tile_addr]
    constructor <;> nlinarith [hp.1, hp.2, hsx.1, hsx.2]
  refine ⟨?_, hrange, ?_, ?_⟩
  · rw [get_tile_type]
    split
    · exact Or.inl rfl
    · split
      · exact Or.inr rfl
      · exact Or.inl rfl
  · intro h
    rw [get_tile_type, if_pos h]
  · rw [get_tile_type, get_tile_type, haddr]
    by_cases hb : 13 ≤ sub_y box_y ∨ sub_y box_y < 0
    · rw [if_pos hb, if_pos hb]
    · rw [if_neg hb, if_neg hb]
      push_neg at hb
      obtain ⟨ha1, ha2⟩ := hrange (by omega) (by omega)
      have hn : ram (curr_tile_addr ram' box_x box_y).toNat =
          ram' (curr_tile_addr ram' box_x box_y).toNat := by
        rw [← haddr]
        exact hagree _ (by omega) (by omega)
      rw [hn]

/-- Witness for claim C10: the tile classification is unchanged by a memory
edit at `0x700`, outside the tile table and the position registers. -/
theorem claim10_witness : get_tile_type ramA (-112) 0 = get_tile_type ramB (-112) 0 :=
  (claim10_get_tile_type ramA ramB (-112) 0 ⟨by decide, by decide, by decide⟩
    (fun a h1 h2 => by
      show (0 : Nat) = if a = 0x700 then 5 else 0
      rw [if_neg (by omega)])).2.2.2

/-! ## Claims about the start-screen skip procedure -/

/-- Clock of a deterministic test emulator: 400 during the first two
frames, then ticking down by 1 per frame until it freezes at 0. -/
def cexTime (s : Nat) : Nat := if s ≤ 2 then 400 else 402 - s

/-- RAM view of the test emulator: the three time digit cells expose
`cexTime`, everything else reads 0. -/
def cexRam (s : Nat) : Mem := fun a =>
  if a = 0x7f8 then cexTime s / 100 % 10
  else if a = 0x7f9 then cexTime s / 10 % 10
  else if a = 0x7fa then cexTime s % 10
  else 0

/-- The test emulator: a state is the number of frames advanced; RAM
writes are ignored. -/
def cexEmu : Emu Nat where
  advance := fun s _ => s + 1
  ramRead := cexRam
  ramWrite := fun s _ _ => s

/-- Counterexample to claim C9: on the test emulator the timer starts
non-zero and then decreases every frame, yet `_skip_start_screen` returns
after a single press/release pair of the idle loop — at a state whose
timer is strictly smaller than the recorded one and still strictly
decreasing.  The procedure therefore returns as soon as the timer is first
observed to decrease, not "only when the timer stops decreasing". -/
theorem claim9_counterexample :
    skip_start_screen cexEmu false 0 0 0 10 0 = some 4 ∧
    timeOfE cexEmu 4 = 398 ∧
    timeOfE cexEmu (cexEmu.advance (cexEmu.advance 4 8) 0) < timeOfE cexEmu 4 := by
  decide

/-- The wait loop returns only states whose decoded time is non-zero. -/
lemma skipLoop1_post {σ : Type} (E : Emu σ) (single : Bool) (tw ts ta : Nat) :
    ∀ (fuel : Nat) (s m1 : σ), skipLoop1 E single tw ts ta fuel s = some m1 →
      timeOfE E m1 ≠ 0 := by
  intro fuel
  induction fuel with
  | zero => intro s m1 h; exact absurd h (by simp [skipLoop1])
  | succ f ih =>
    intro s m1 h
    by_cases h0 : timeOfE E s = 0
    · rw [skipLoop1, if_pos h0] at h
      exact ih _ _ h
    · rw [skipLoop1, if_neg h0] at h
      cases h
      exact h0

/-- The idle loop returns either immediately (time already below the
record) or at a state one press/release pair after a state whose time was
strictly larger. -/
lemma skipLoop2_post {σ : Type} (E : Emu σ) :
    ∀ (fuel last : Nat) (s m2 : σ), skipLoop2 E fuel last s = some m2 →
      (m2 = s ∧ timeOfE E s < last) ∨
      ∃ p : σ, m2 = E.advance (E.advance p 8) 0 ∧ timeOfE E m2 < timeOfE E p := by
  intro fuel
  induction fuel with
  | zero => intro last s m2 h; exact absurd h (by simp [skipLoop2])
  | succ f ih =>
    intro last s m2 h
    by_cases hc : last ≤ timeOfE E s
    · rw [skipLoop2, if_pos hc] at h
      rcases ih _ _ _ h with ⟨hm, hlt⟩ | ⟨p, hp, hlt⟩
      · exact Or.inr ⟨s, hm, by rw [hm]; exact hlt⟩
      · exact Or.inr ⟨p, hp, hlt⟩
    · rw [skipLoop2, if_neg hc] at h
      cases h
      exact Or.inl ⟨rfl, by omega⟩

/-- Claim C9 amended: each waiting iteration of the start-screen skip
presses start, injects the target stage when configured, releases start
and forces the pre-level timer to 0; the wait loop returns only once the
time field is non-zero; and the subsequent idle loop keeps advancing
press/release pairs while the timer has not decreased below the recorded
value, returning as soon as a decrease is first observed (not when the
timer stops decreasing). -/
theorem claim9_amended {σ : Type} (E : Emu σ) (single : Bool) (tw ts ta : Nat) :
    (∀ (fuel : Nat) (s : σ), timeOfE E s = 0 →
      skipLoop1 E single tw ts ta (fuel + 1) s =
        skipLoop1 E single tw ts ta fuel
          (runout_prelevel_timer E
            (E.advance (if single then write_stage E tw ts ta (E.advance s 8)
              else E.advance s 8) 0))) ∧
    (∀ (fuel : Nat) (s m1 : σ), skipLoop1 E single tw ts ta fuel s = some m1 →
      timeOfE E m1 ≠ 0) ∧
    (∀ (fuel last : Nat) (s m2 : σ), skipLoop2 E fuel last s = some m2 →
      (m2 = s ∧ timeOfE E s < last) ∨
      ∃ p : σ, m2 = E.advance (E.advance p 8) 0 ∧ timeOfE E m2 < timeOfE E p) := by
  refine ⟨?_, skipLoop1_post E single tw ts ta, skipLoop2_post E⟩
  intro fuel s h0
  rw [skipLoop1, if_pos h0]

/-- Witness for the amended claim C9, on the test emulator: the waiting
iteration unfolds as described at a zero-time state, the wait loop exits
at the non-zero time 400, and the idle loop result at fuel 10 is reached
one press/release pair after a strictly larger time. -/
theorem claim9_amended_witness :
    (skipLoop1 cexEmu false 0 0 0 3 500 =
      skipLoop1 cexEmu false 0 0 0 2
        (runout_prelevel_timer cexEmu
          (cexEmu.advance (if false then write_stage cexEmu 0 0 0 (cexEmu.advance 500 8)
            else cexEmu.advance 500 8) 0))) ∧
    timeOfE cexEmu 2 ≠ 0 ∧
    ((4 = 2 ∧ timeOfE cexEmu 2 < 400) ∨
      ∃ p : Nat, 4 = cexEmu.advance (cexEmu.advance p 8) 0 ∧
        timeOfE cexEmu 4 < timeOfE cexEmu p) :=
  ⟨(claim9_amended cexEmu false 0 0 0).1 2 500 (by decide),
   (claim9_amended cexEmu false 0 0 0).2.1 3 2 2 (by decide),
   (claim9_amended cexEmu false 0 0 0).2.2 10 400 2 4 (by decide)⟩

end SMB
